import Mathlib

/-!
Verification of the stuck-worker detection protocol implemented by
`powerapi/dispatcher/blocking_detector.py`.

The Python class `BlockingDetector` is embedded as a Lean structure; its
mutating methods become pure state transformers.  `notify_poison_received`
returns an `Option`: the `none` result models the `TypeError` that Python
would raise at `self.last_poison_message_id + 1` when
`last_poison_message_id` is still `None` (that expression is only evaluated
when the `state == State.INIT` branch did not fire).
-/

namespace PowerAPI

/-- The enumeration `State` of `blocking_detector.py`. -/
inductive State where
  | INIT
  | BLOCKED_INTER_1
  | BLOCKED_INTER_2
  | BLOCKED
  | FINAL
deriving DecidableEq

/-- The fields of the Python class `BlockingDetector`. -/
structure BlockingDetector where
  state : State
  last_poison_message_id : Option Int
  max_id_value : Int
  last_message_id : Int
deriving DecidableEq

/-- `BlockingDetector.__init__`: the freshly constructed detector. -/
def BlockingDetector.init : BlockingDetector :=
  { state := State.INIT
    last_poison_message_id := none
    max_id_value := 10000
    last_message_id := 0 }

/-- The unconditional update of `last_poison_message_id` performed at the end
of `notify_poison_received` (lines 66-69 of the source). -/
def newLastPoisonId (d : BlockingDetector) (poison_id : Int) : Option Int :=
  if poison_id = d.max_id_value then some (-1) else some poison_id

/-- The `elif` chain of `notify_poison_received` taken when the incoming id is
the successor of `last_poison_message_id` (lines 56-61 of the source): each of
the three listed states advances one step, any other state is left as is. -/
def consecStep : State → State
  | State.BLOCKED_INTER_1 => State.BLOCKED_INTER_2
  | State.BLOCKED_INTER_2 => State.BLOCKED
  | State.BLOCKED => State.FINAL
  | s => s

/-- `BlockingDetector.notify_poison_received` (lines 52-69).  The argument
`poison_id` stands for `message.dispatcher_report_id`.  Returns `none` when
Python would raise a `TypeError`: the `state != INIT` path evaluates
`self.last_poison_message_id + 1` with `last_poison_message_id` still `None`. -/
def notify_poison_received (d : BlockingDetector) (poison_id : Int) :
    Option BlockingDetector :=
  if d.state = State.INIT then
    some { d with
      state := State.BLOCKED_INTER_1
      last_poison_message_id := newLastPoisonId d poison_id }
  else
    match d.last_poison_message_id with
    | none => none
    | some l =>
      let s :=
        if poison_id = l + 1 then
          consecStep d.state
        else if d.state ≠ State.BLOCKED ∧ d.state ≠ State.FINAL then
          State.BLOCKED_INTER_1
        else
          d.state
      some { d with
        state := s
        last_poison_message_id := newLastPoisonId d poison_id }

/-- `BlockingDetector.is_blocked` (lines 71-72). -/
def is_blocked (d : BlockingDetector) : Bool :=
  decide (d.state = State.BLOCKED)

/-- `BlockingDetector.get_message_id` (lines 74-80): returns the current
`last_message_id` together with the updated detector. -/
def get_message_id (d : BlockingDetector) : Int × BlockingDetector :=
  (d.last_message_id,
    { d with
      last_message_id :=
        if d.last_message_id = d.max_id_value then 0
        else d.last_message_id + 1 })

/-- Sequencing of `notify_poison_received` calls; `none` as soon as one call
raises. -/
def notifyList (d : BlockingDetector) : List Int → Option BlockingDetector
  | [] => some d
  | id :: ids =>
    match notify_poison_received d id with
    | none => none
    | some d' => notifyList d' ids

/-- `n` successive calls to `get_message_id`: the ids returned, in order,
together with the final detector. -/
def probeRun (d : BlockingDetector) : Nat → List Int × BlockingDetector
  | 0 => ([], d)
  | n + 1 =>
    let p := get_message_id d
    let r := probeRun p.2 n
    (p.1 :: r.1, r.2)

/-- A method call on a `BlockingDetector` that may change its fields:
a poison notification or a probe-id allocation. -/
inductive Op where
  | poison (id : Int)
  | probe

/-- Running a sequence of method calls; `none` as soon as one call raises. -/
def runOps (d : BlockingDetector) : List Op → Option BlockingDetector
  | [] => some d
  | Op.poison id :: ops =>
    match notify_poison_received d id with
    | none => none
    | some d' => runOps d' ops
  | Op.probe :: ops => runOps (get_message_id d).2 ops

/-- Detectors reachable from a fresh one by any sequence of method calls,
with arbitrary integer poison ids (calls that would raise produce no new
state). -/
inductive Reachable : BlockingDetector → Prop where
  | init : Reachable BlockingDetector.init
  | notify {d d' : BlockingDetector} (id : Int) : Reachable d →
      notify_poison_received d id = some d' → Reachable d'
  | probe {d : BlockingDetector} : Reachable d → Reachable (get_message_id d).2

/-- Detectors reachable from a fresh one when every notified poison id obeys
the caller contract `0 ≤ id ≤ max_id`. -/
inductive ReachableB : BlockingDetector → Prop where
  | init : ReachableB BlockingDetector.init
  | notify {d d' : BlockingDetector} (id : Int) : ReachableB d →
      0 ≤ id → id ≤ 10000 →
      notify_poison_received d id = some d' → ReachableB d'
  | probe {d : BlockingDetector} : ReachableB d → ReachableB (get_message_id d).2

/-! ### Helper lemmas -/

theorem notify_eq_of_init {d : BlockingDetector} (h : d.state = State.INIT) (id : Int) :
    notify_poison_received d id =
      some { d with
        state := State.BLOCKED_INTER_1
        last_poison_message_id := newLastPoisonId d id } := by
  simp [notify_poison_received, h]

theorem notify_eq_consec {d : BlockingDetector} {l id : Int} (hne : d.state ≠ State.INIT)
    (hl : d.last_poison_message_id = some l) (hid : id = l + 1) :
    notify_poison_received d id =
      some { d with
        state := consecStep d.state
        last_poison_message_id := newLastPoisonId d id } := by
  subst hid
  simp [notify_poison_received, hne, hl]

theorem notify_eq_nonconsec {d : BlockingDetector} {l id : Int} (hne : d.state ≠ State.INIT)
    (hl : d.last_poison_message_id = some l) (hid : id ≠ l + 1) :
    notify_poison_received d id =
      some { d with
        state :=
          if d.state ≠ State.BLOCKED ∧ d.state ≠ State.FINAL then State.BLOCKED_INTER_1
          else d.state
        last_poison_message_id := newLastPoisonId d id } := by
  simp [notify_poison_received, hne, hl, hid]

theorem notify_frame_fields {d : BlockingDetector} {id : Int} {d' : BlockingDetector}
    (h : notify_poison_received d id = some d') :
    d'.last_message_id = d.last_message_id ∧ d'.max_id_value = d.max_id_value := by
  unfold notify_poison_received at h
  split at h
  · injection h with h
    subst h
    exact ⟨rfl, rfl⟩
  · split at h
    · exact Option.noConfusion h
    · injection h with h
      subst h
      exact ⟨rfl, rfl⟩

theorem notify_last_poison {d : BlockingDetector} {id : Int} {d' : BlockingDetector}
    (h : notify_poison_received d id = some d') :
    d'.last_poison_message_id = newLastPoisonId d id := by
  unfold notify_poison_received at h
  split at h
  · injection h with h
    subst h
    rfl
  · split at h
    · exact Option.noConfusion h
    · injection h with h
      subst h
      rfl

theorem notify_state_ne_init {d : BlockingDetector} {id : Int} {d' : BlockingDetector}
    (h : notify_poison_received d id = some d') : d'.state ≠ State.INIT := by
  unfold notify_poison_received at h
  split at h <;> rename_i hs
  · injection h with h
    subst h
    simp
  · split at h
    · exact Option.noConfusion h
    · injection h with h
      subst h
      show (if _ then consecStep d.state else _) ≠ State.INIT
      cases hds : d.state <;> simp_all [consecStep] <;> split <;> simp

theorem notify_final {d : BlockingDetector} {id : Int} {d' : BlockingDetector}
    (hs : d.state = State.FINAL) (h : notify_poison_received d id = some d') :
    d'.state = State.FINAL := by
  cases hl : d.last_poison_message_id with
  | none => simp [notify_poison_received, hs, hl] at h
  | some l =>
    by_cases hid : id = l + 1
    · rw [notify_eq_consec (by simp [hs]) hl hid] at h
      injection h with h
      subst h
      simp [consecStep, hs]
    · rw [notify_eq_nonconsec (by simp [hs]) hl hid] at h
      injection h with h
      subst h
      simp [hs]

theorem runOps_final : ∀ (ops : List Op) {d : BlockingDetector},
    d.state = State.FINAL → ∀ {d' : BlockingDetector},
    runOps d ops = some d' → d'.state = State.FINAL := by
  intro ops
  induction ops with
  | nil =>
    intro d hs d' h
    simp only [runOps] at h
    injection h with h
    exact h ▸ hs
  | cons op ops ih =>
    intro d hs d' h
    cases op with
    | poison id =>
      simp only [runOps] at h
      cases he : notify_poison_received d id with
      | none => rw [he] at h; exact Option.noConfusion h
      | some dm => rw [he] at h; exact ih (notify_final hs he) h
    | probe =>
      simp only [runOps] at h
      exact ih (show (get_message_id d).2.state = State.FINAL from hs) h

theorem reachable_inv {d : BlockingDetector} (h : Reachable d) :
    d.max_id_value = 10000 ∧ 0 ≤ d.last_message_id ∧ d.last_message_id ≤ 10000 ∧
    (d.last_poison_message_id = none ↔ d.state = State.INIT) := by
  induction h with
  | init => simp [BlockingDetector.init]
  | notify id hr he ih =>
    have hf := notify_frame_fields he
    have hl := notify_last_poison he
    have hs := notify_state_ne_init he
    refine ⟨by rw [hf.2]; exact ih.1, by rw [hf.1]; exact ih.2.1,
      by rw [hf.1]; exact ih.2.2.1, ?_⟩
    constructor
    · intro hn
      rw [hl] at hn
      unfold newLastPoisonId at hn
      split at hn <;> exact Option.noConfusion hn
    · intro hi
      exact absurd hi hs
  | probe hr ih =>
    obtain ⟨hmax, h0, h1, hiff⟩ := ih
    refine ⟨hmax, ?_, ?_, hiff⟩ <;>
      simp only [get_message_id, hmax] <;> split <;> omega

theorem probeRun_succ (d : BlockingDetector) (n : Nat) :
    probeRun d (n + 1) =
      ((get_message_id d).1 :: (probeRun (get_message_id d).2 n).1,
        (probeRun (get_message_id d).2 n).2) := rfl

theorem probeRun_linear (n : Nat) :
    ∀ (d : BlockingDetector) (c : Int), d.last_message_id = c →
      d.max_id_value = 10000 → c ≤ 10000 → c + n ≤ 10001 →
      (probeRun d n).1 = (List.range n).map (fun k : Nat => c + (k : Int)) ∧
      (probeRun d n).2 =
        { d with last_message_id := if c + n = 10001 then 0 else c + n } := by
  induction n with
  | zero =>
    intro d c hd hmax hc hb
    have h0 : ¬(c + ((0 : Nat) : Int) = 10001) := by omega
    rw [if_neg h0]
    refine ⟨by simp [probeRun], ?_⟩
    show d = _
    rw [show c + ((0 : Nat) : Int) = c by omega, ← hd]
  | succ n ih =>
    intro d c hd hmax hc hb
    by_cases h10 : c = 10000
    · have hn : n = 0 := by
        have : c + ((n + 1 : Nat) : Int) ≤ 10001 := hb
        push_cast at this
        omega
      subst hn
      have hstep : get_message_id d = (c, { d with last_message_id := 0 }) := by
        simp [get_message_id, hmax, hd, h10]
      have hcond : c + (((0 : Nat) + 1 : Nat) : Int) = 10001 := by push_cast; omega
      rw [if_pos hcond, probeRun_succ, hstep]
      refine ⟨?_, by simp [probeRun]⟩
      simp [probeRun, List.range_succ]
    · have hstep : get_message_id d = (c, { d with last_message_id := c + 1 }) := by
        simp [get_message_id, hmax, hd, h10]
      obtain ⟨ih1, ih2⟩ := ih { d with last_message_id := c + 1 } (c + 1) rfl
        hmax (by omega) (by push_cast at hb ⊢; omega)
      rw [probeRun_succ, hstep]
      constructor
      · show c :: _ = _
        rw [ih1, List.range_succ_eq_map, List.map_cons, List.map_map]
        refine congrArg₂ _ (by simp) (List.map_congr_left ?_)
        intro k _
        show c + 1 + (k : Int) = c + ((k + 1 : Nat) : Int)
        push_cast
        ring
      · show _ = { d with last_message_id := _ }
        rw [ih2]
        have hcast : (c + 1) + ((n : Nat) : Int) = c + (((n : Nat) + 1 : Nat) : Int) := by
          push_cast
          ring
        rw [hcast]

theorem probeRun_add (m n : Nat) : ∀ d : BlockingDetector,
    probeRun d (m + n) =
      ((probeRun d m).1 ++ (probeRun (probeRun d m).2 n).1,
        (probeRun (probeRun d m).2 n).2) := by
  induction m with
  | zero =>
    intro d
    simp [probeRun]
  | succ m ih =>
    intro d
    have hmn : m + 1 + n = (m + n) + 1 := by omega
    rw [hmn, probeRun_succ, ih (get_message_id d).2, probeRun_succ]
    simp

theorem reachableB_reachable {d : BlockingDetector} (h : ReachableB d) : Reachable d := by
  induction h with
  | init => exact Reachable.init
  | notify id hr h0 h1 he ih => exact Reachable.notify id ih he
  | probe hr ih => exact Reachable.probe ih

/-! ### Claim theorems -/

/-- C1: from the states `BLOCKED_INTER_1`, `BLOCKED_INTER_2` and `BLOCKED`, a
notification whose id is `last_poison_message_id + 1` advances the state
exactly one step along the chain; from a fresh detector, notifications with
ids `a, a+1, a+2` end in `BLOCKED` with `is_blocked` first becoming true after
the second consecutive id following the first, and a fourth consecutive id
`a+3` moves the state to `FINAL`, making `is_blocked` false again. -/
theorem consecutive_ids_advance (d : BlockingDetector) (l : Int)
    (hl : d.last_poison_message_id = some l) (a : Int) (ha0 : 0 ≤ a)
    (ha3 : a + 3 ≤ 10000) :
    (d.state = State.BLOCKED_INTER_1 →
      (notify_poison_received d (l + 1)).map BlockingDetector.state
        = some State.BLOCKED_INTER_2) ∧
    (d.state = State.BLOCKED_INTER_2 →
      (notify_poison_received d (l + 1)).map BlockingDetector.state
        = some State.BLOCKED) ∧
    (d.state = State.BLOCKED →
      (notify_poison_received d (l + 1)).map BlockingDetector.state
        = some State.FINAL) ∧
    ∃ d1 d2 d3 d4 : BlockingDetector,
      notify_poison_received BlockingDetector.init a = some d1 ∧
        d1.state = State.BLOCKED_INTER_1 ∧ is_blocked d1 = false ∧
      notify_poison_received d1 (a + 1) = some d2 ∧
        d2.state = State.BLOCKED_INTER_2 ∧ is_blocked d2 = false ∧
      notify_poison_received d2 (a + 2) = some d3 ∧
        d3.state = State.BLOCKED ∧ is_blocked d3 = true ∧
      notify_poison_received d3 (a + 3) = some d4 ∧
        d4.state = State.FINAL ∧ is_blocked d4 = false := by
  refine ⟨?_, ?_, ?_, ?_⟩
  · intro hs
    rw [notify_eq_consec (by simp [hs]) hl rfl]
    simp [consecStep, hs]
  · intro hs
    rw [notify_eq_consec (by simp [hs]) hl rfl]
    simp [consecStep, hs]
  · intro hs
    rw [notify_eq_consec (by simp [hs]) hl rfl]
    simp [consecStep, hs]
  · have ha10 : a ≠ 10000 := by omega
    have ha11 : a + 1 ≠ 10000 := by omega
    have ha12 : a + 2 ≠ 10000 := by omega
    refine ⟨⟨State.BLOCKED_INTER_1, some a, 10000, 0⟩,
      ⟨State.BLOCKED_INTER_2, some (a + 1), 10000, 0⟩,
      ⟨State.BLOCKED, some (a + 2), 10000, 0⟩,
      ⟨State.FINAL, newLastPoisonId ⟨State.BLOCKED, some (a + 2), 10000, 0⟩ (a + 3), 10000, 0⟩,
      ?_, rfl, rfl, ?_, rfl, rfl, ?_, rfl, rfl, ?_, rfl, rfl⟩
    · rw [notify_eq_of_init rfl a]
      simp [BlockingDetector.init, newLastPoisonId, ha10]
    · rw [notify_eq_consec (d := ⟨State.BLOCKED_INTER_1, some a, 10000, 0⟩) (by simp) rfl rfl]
      simp [consecStep, newLastPoisonId, ha11]
    · rw [notify_eq_consec (d := ⟨State.BLOCKED_INTER_2, some (a + 1), 10000, 0⟩)
        (by simp) rfl (by ring)]
      simp [consecStep, newLastPoisonId, ha12]
    · rw [notify_eq_consec (d := ⟨State.BLOCKED, some (a + 2), 10000, 0⟩)
        (by simp) rfl (by ring)]
      simp [consecStep]

/-- C1 witness. -/
theorem consecutive_ids_advance_witness :
    (notify_poison_received ⟨State.BLOCKED_INTER_1, some 5, 10000, 0⟩ (5 + 1)).map
      BlockingDetector.state = some State.BLOCKED_INTER_2 :=
  (consecutive_ids_advance ⟨State.BLOCKED_INTER_1, some 5, 10000, 0⟩ 5 rfl 0
    (by decide) (by decide)).1 rfl

/-- C2: when the detector is not in `INIT` and the notified id is not
`last_poison_message_id + 1`, the state is reset to `BLOCKED_INTER_1` from
`BLOCKED_INTER_1` or `BLOCKED_INTER_2`, and is left unchanged from `BLOCKED`
or `FINAL`. -/
theorem nonconsecutive_id_reset (d : BlockingDetector) (l id : Int)
    (hne : d.state ≠ State.INIT) (hl : d.last_poison_message_id = some l)
    (hid : id ≠ l + 1) :
    ((d.state = State.BLOCKED_INTER_1 ∨ d.state = State.BLOCKED_INTER_2) →
      (notify_poison_received d id).map BlockingDetector.state
        = some State.BLOCKED_INTER_1) ∧
    ((d.state = State.BLOCKED ∨ d.state = State.FINAL) →
      (notify_poison_received d id).map BlockingDetector.state = some d.state) := by
  rw [notify_eq_nonconsec hne hl hid]
  constructor
  · rintro (hs | hs) <;> simp [hs]
  · rintro (hs | hs) <;> simp [hs]

/-- C2 witness. -/
theorem nonconsecutive_id_reset_witness :
    (notify_poison_received ⟨State.BLOCKED_INTER_2, some 5, 10000, 0⟩ 9).map
      BlockingDetector.state = some State.BLOCKED_INTER_1 :=
  (nonconsecutive_id_reset ⟨State.BLOCKED_INTER_2, some 5, 10000, 0⟩ 5 9
    (by decide) rfl (by decide)).1 (Or.inr rfl)

/-- C4: `is_blocked` returns true exactly when the state is `BLOCKED`, and in
particular returns false in each of the four other states. -/
theorem is_blocked_iff_blocked (d : BlockingDetector) :
    (is_blocked d = true ↔ d.state = State.BLOCKED) ∧
    (d.state = State.INIT ∨ d.state = State.BLOCKED_INTER_1 ∨
        d.state = State.BLOCKED_INTER_2 ∨ d.state = State.FINAL →
      is_blocked d = false) := by
  constructor
  · simp [is_blocked]
  · rintro (hs | hs | hs | hs) <;> simp [is_blocked, hs]

/-- C4 witness. -/
theorem is_blocked_iff_blocked_witness :
    is_blocked BlockingDetector.init = false :=
  (is_blocked_iff_blocked BlockingDetector.init).2 (Or.inl rfl)

/-- C7: a freshly constructed detector has state `INIT`, `is_blocked` false
and probe-id counter `0`, and the first `notify_poison_received` call moves
the state to `BLOCKED_INTER_1` for every id in `[0, max_id]`. -/
theorem fresh_detector_spec :
    BlockingDetector.init.state = State.INIT ∧
    is_blocked BlockingDetector.init = false ∧
    BlockingDetector.init.last_message_id = 0 ∧
    ∀ id : Int, 0 ≤ id → id ≤ 10000 →
      ∃ d', notify_poison_received BlockingDetector.init id = some d' ∧
        d'.state = State.BLOCKED_INTER_1 := by
  refine ⟨rfl, rfl, rfl, ?_⟩
  intro id _ _
  exact ⟨_, notify_eq_of_init rfl id, rfl⟩

/-- C7 witness. -/
theorem fresh_detector_spec_witness :
    ∃ d', notify_poison_received BlockingDetector.init 7 = some d' ∧
      d'.state = State.BLOCKED_INTER_1 :=
  fresh_detector_spec.2.2.2 7 (by decide) (by decide)

/-- C3: every successful `notify_poison_received` call stores
`if id = 10000 then -1 else id` as the new `last_poison_message_id`; therefore
a notification with id `max_id = 10000` leaves `-1` behind and a following id
`0` passes the successor test, advancing the state by `consecStep` exactly as
any other consecutive pair such as 5 then 6 does. -/
theorem last_poison_update_and_wraparound :
    (∀ (d : BlockingDetector) (id : Int) (d' : BlockingDetector),
        d.max_id_value = 10000 → notify_poison_received d id = some d' →
        d'.last_poison_message_id = if id = 10000 then some (-1) else some id) ∧
    (∀ d d' : BlockingDetector, d.max_id_value = 10000 →
        notify_poison_received d 10000 = some d' →
        d'.last_poison_message_id = some (-1) ∧
        (notify_poison_received d' 0).map BlockingDetector.state
          = some (consecStep d'.state)) ∧
    (∀ d d' : BlockingDetector, d.state ≠ State.INIT →
        d.last_poison_message_id = some 5 →
        notify_poison_received d 6 = some d' →
        d'.state = consecStep d.state) := by
  refine ⟨?_, ?_, ?_⟩
  · intro d id d' hmax he
    rw [notify_last_poison he]
    simp [newLastPoisonId, hmax]
  · intro d d' hmax he
    have h1 : d'.last_poison_message_id = some (-1) := by
      rw [notify_last_poison he]
      simp [newLastPoisonId, hmax]
    refine ⟨h1, ?_⟩
    rw [notify_eq_consec (notify_state_ne_init he) h1 (by decide)]
    simp
  · intro d d' hne hl he
    rw [notify_eq_consec hne hl (by decide)] at he
    injection he with he
    subst he
    rfl

/-- C3 witness. -/
theorem last_poison_update_and_wraparound_witness :
    (⟨State.BLOCKED_INTER_2, some (-1), 10000, 0⟩ : BlockingDetector).last_poison_message_id
        = some (-1) ∧
    (notify_poison_received ⟨State.BLOCKED_INTER_2, some (-1), 10000, 0⟩ 0).map
        BlockingDetector.state
      = some (consecStep (⟨State.BLOCKED_INTER_2, some (-1), 10000, 0⟩ :
          BlockingDetector).state) :=
  last_poison_update_and_wraparound.2.1 ⟨State.BLOCKED_INTER_1, some 9999, 10000, 0⟩
    ⟨State.BLOCKED_INTER_2, some (-1), 10000, 0⟩ rfl (by decide)

/-- C5: `FINAL` is terminal: a detector in state `FINAL` stays in `FINAL`
after `notify_poison_received` with any poison id, and after any sequence of
`notify_poison_received` / `get_message_id` calls. -/
theorem final_is_terminal (d : BlockingDetector) (hs : d.state = State.FINAL) :
    (∀ (id : Int) (d' : BlockingDetector),
      notify_poison_received d id = some d' → d'.state = State.FINAL) ∧
    (∀ (ops : List Op) (d' : BlockingDetector),
      runOps d ops = some d' → d'.state = State.FINAL) :=
  ⟨fun _ _ h => notify_final hs h, fun ops _ h => runOps_final ops hs h⟩

/-- C5 witness. -/
theorem final_is_terminal_witness :
    (⟨State.FINAL, some 6, 10000, 0⟩ : BlockingDetector).state = State.FINAL :=
  (final_is_terminal ⟨State.FINAL, some 5, 10000, 0⟩ rfl).1 6
    ⟨State.FINAL, some 6, 10000, 0⟩ (by decide)

/-- C6: on a fresh detector, `get_message_id` returns `0, 1, ..., 10000` over
the first `10001` calls and `0` again on the next call, and the counter of
every reachable detector lies in `[0, max_id]`. -/
theorem probe_id_cycle :
    (probeRun BlockingDetector.init 10002).1
        = ((List.range 10001).map (fun k : Nat => (k : Int))) ++ [0] ∧
    ∀ d : BlockingDetector, Reachable d →
      0 ≤ d.last_message_id ∧ d.last_message_id ≤ 10000 := by
  constructor
  · obtain ⟨hids, hfin⟩ := probeRun_linear 10001 BlockingDetector.init 0 rfl rfl
      (by norm_num) (by norm_num)
    have hsplit := probeRun_add 10001 1 BlockingDetector.init
    have hfin' : (probeRun BlockingDetector.init 10001).2 = BlockingDetector.init := by
      rw [hfin]
      rw [if_pos (by norm_num)]
      rfl
    rw [show (10002 : Nat) = 10001 + 1 by norm_num, hsplit, hfin']
    have h1 : (probeRun BlockingDetector.init 1).1 = [0] := rfl
    rw [hids, h1]
    simp
  · intro d h
    exact ⟨(reachable_inv h).2.1, (reachable_inv h).2.2.1⟩

/-- C6 witness. -/
theorem probe_id_cycle_witness :
    0 ≤ BlockingDetector.init.last_message_id ∧
      BlockingDetector.init.last_message_id ≤ 10000 :=
  probe_id_cycle.2 BlockingDetector.init Reachable.init

/-- C8: `notify_poison_received` never changes the probe-id counter or
`max_id_value`; `get_message_id` never changes the state, the last poison id
or `max_id_value`; `is_blocked` reads only the state. -/
theorem counter_state_independent :
    (∀ (d : BlockingDetector) (id : Int) (d' : BlockingDetector),
        notify_poison_received d id = some d' →
        d'.last_message_id = d.last_message_id ∧ d'.max_id_value = d.max_id_value) ∧
    (∀ d : BlockingDetector,
        (get_message_id d).2.state = d.state ∧
        (get_message_id d).2.last_poison_message_id = d.last_poison_message_id ∧
        (get_message_id d).2.max_id_value = d.max_id_value) ∧
    (∀ e₁ e₂ : BlockingDetector, e₁.state = e₂.state →
        is_blocked e₁ = is_blocked e₂) := by
  refine ⟨fun d id d' h => notify_frame_fields h, fun d => ⟨rfl, rfl, rfl⟩, ?_⟩
  intro e₁ e₂ h
  simp [is_blocked, h]

/-- C8 witness. -/
theorem counter_state_independent_witness :
    (⟨State.BLOCKED_INTER_1, some 3, 10000, 0⟩ : BlockingDetector).last_message_id
        = BlockingDetector.init.last_message_id ∧
    (⟨State.BLOCKED_INTER_1, some 3, 10000, 0⟩ : BlockingDetector).max_id_value
        = BlockingDetector.init.max_id_value :=
  counter_state_independent.1 BlockingDetector.init 3
    ⟨State.BLOCKED_INTER_1, some 3, 10000, 0⟩ (by decide)

/-- C9: in every reachable detector `last_poison_message_id` is `none` exactly
when the state is `INIT`, and `notify_poison_received` never hits the raising
branch: it returns a result for every integer poison id. -/
theorem notify_total_on_reachable (d : BlockingDetector) (h : Reachable d) :
    (d.last_poison_message_id = none ↔ d.state = State.INIT) ∧
    ∀ id : Int, (notify_poison_received d id).isSome = true := by
  have hiff := (reachable_inv h).2.2.2
  refine ⟨hiff, ?_⟩
  intro id
  by_cases hs : d.state = State.INIT
  · rw [notify_eq_of_init hs id]
    rfl
  · cases hl : d.last_poison_message_id with
    | none => exact absurd (hiff.mp hl) hs
    | some l =>
      by_cases hid : id = l + 1
      · rw [notify_eq_consec hs hl hid]
        rfl
      · rw [notify_eq_nonconsec hs hl hid]
        rfl

/-- C9 witness. -/
theorem notify_total_on_reachable_witness :
    (notify_poison_received BlockingDetector.init 0).isSome = true :=
  (notify_total_on_reachable BlockingDetector.init Reachable.init).2 0

/-- C10: no operation ever returns the state to `INIT`, and when every
notified poison id lies in `[0, max_id]`, the stored `last_poison_message_id`
of a reachable detector past `INIT` is `-1` or lies in `[0, max_id - 1]`;
the value `max_id` itself is never stored. -/
theorem reachable_invariants (d : BlockingDetector) (h : ReachableB d) :
    (∀ (id : Int) (d' : BlockingDetector),
        notify_poison_received d id = some d' → d'.state ≠ State.INIT) ∧
    (d.state ≠ State.INIT →
      ∃ l, d.last_poison_message_id = some l ∧
        (l = -1 ∨ (0 ≤ l ∧ l ≤ 9999))) := by
  constructor
  · intro id d' he
    exact notify_state_ne_init he
  · induction h with
    | init => intro hs; exact absurd rfl hs
    | notify id hr h0 h1 he ih =>
      intro _
      rw [notify_last_poison he]
      unfold newLastPoisonId
      rw [(reachable_inv (reachableB_reachable hr)).1]
      by_cases h10 : id = 10000
      · rw [if_pos h10]
        exact ⟨-1, rfl, Or.inl rfl⟩
      · rw [if_neg h10]
        exact ⟨id, rfl, Or.inr ⟨h0, by omega⟩⟩
    | probe hr ih =>
      intro hs
      exact ih (show _ ≠ State.INIT from hs)

/-- C10 witness. -/
theorem reachable_invariants_witness :
    ∃ l, (⟨State.BLOCKED_INTER_1, some 3, 10000, 0⟩ :
        BlockingDetector).last_poison_message_id = some l ∧
      (l = -1 ∨ (0 ≤ l ∧ l ≤ 9999)) :=
  (reachable_invariants ⟨State.BLOCKED_INTER_1, some 3, 10000, 0⟩
    (ReachableB.notify 3 ReachableB.init (by decide) (by decide) (by decide))).2
    (by decide)

end PowerAPI
